import Mathlib

/-!
Shallow embedding of the `e2u/dynamic-proxy` repository (Go) for checking
its natural-language specification.

The embedding follows the source files:
* `internal/proxy/proxy.go` — the `Proxy` record, its JSON codec
  (`DumpJSON` / `LoadFromJSON`), the validator `ValidProxy` and the
  protocol prober `determineConnectionProtocol`;
* `internal/proxy/helpers.go` — `selectProxyFromDB`, `updateProxyCount`;
* `internal/proxy/connect_handler.go` — the CONNECT tunnel
  (`handleConnect`, `hijackClientToTarget`, `hijackTargetToClient`);
* the `main` package (`gatherProxies`, `cleanupProxiesFromDB`,
  `checkAllProxiesHealth`);
* `internal/extractor` (`extractAndValidateProxies`,
  `extractProxiesFromHTMLTable`).

Network I/O, the badger store and the colly fetcher are external
collaborators; they are modelled by explicit oracles/environments
(`ProbeEnv`, `ValidEnv`) and by an association-list store, following the
spec's store contract (an opaque ordered map with point get/set/delete
and full iteration).

Time is modelled as a `Nat` instant in nanoseconds (Go `time.Time`);
`0` models the zero time (`IsZero`).  JSON documents are modelled as an
abstract syntax tree `Val`; the leaf `jtime n` stands for the canonical
RFC3339 rendering of the instant `n` (Go's `time.Time` JSON codec is a
bijection between represented instants and their canonical strings, so
the rendering is kept abstract).  `Val.raw bs` stands for a byte value
that is not a JSON document (e.g. the single-byte counters written by
`updateProxyCount`).
-/

namespace DynamicProxy

/-- The `Proxy` record of `internal/proxy/proxy.go`.  The fields `addr`
and `count` belong to the handler-side variant of the struct used by
`helpers.go` (`proxy.Addr`, `proxy.Count`); they are not serialized by
the JSON codec of `proxy.go`, whose five tagged fields are
`ip, port, protocol, disable, updated`. -/
structure Proxy where
  ip : String
  port : String
  protocol : String
  disable : Bool
  updated : Nat
  addr : String
  count : Int
deriving Repr, DecidableEq

/-- `(p *Proxy) String()` / `Address()`: `"{protocol}://{ip}:{port}"`. -/
def ProxyString (p : Proxy) : String :=
  p.protocol ++ "://" ++ p.ip ++ ":" ++ p.port

/-- Store values: JSON documents (abstract syntax) or raw non-JSON bytes. -/
inductive Val where
  | jstr : String → Val
  | jbool : Bool → Val
  | jtime : Nat → Val
  | jobj : List (String × Val) → Val
  | raw : List Nat → Val

/-- `json.Marshal` of a `Proxy` (`DumpJSON`, proxy.go:47-54): an object
with the five tagged fields in struct order. -/
def DumpJSON (p : Proxy) : Val :=
  Val.jobj [("ip", Val.jstr p.ip), ("port", Val.jstr p.port),
    ("protocol", Val.jstr p.protocol), ("disable", Val.jbool p.disable),
    ("updated", Val.jtime p.updated)]

/-- Last-occurrence field lookup (encoding/json lets the last duplicate
key win; documents produced by `DumpJSON` have distinct keys). -/
def lastLookup (fields : List (String × Val)) (k : String) : Option Val :=
  List.lookup k fields.reverse

/-- Decode a string-typed field: absent fields keep the zero value `""`;
a present field of the wrong JSON type makes `json.Unmarshal` fail. -/
def strField (fields : List (String × Val)) (k : String) : Option String :=
  match lastLookup fields k with
  | none => some ""
  | some (Val.jstr s) => some s
  | some _ => none

/-- Decode a bool-typed field (zero value `false`). -/
def boolField (fields : List (String × Val)) (k : String) : Option Bool :=
  match lastLookup fields k with
  | none => some false
  | some (Val.jbool b) => some b
  | some _ => none

/-- Decode a `time.Time`-typed field (zero value = the zero time, `0`);
anything but a canonical RFC3339 string fails to parse. -/
def timeField (fields : List (String × Val)) (k : String) : Option Nat :=
  match lastLookup fields k with
  | none => some 0
  | some (Val.jtime t) => some t
  | some _ => none

/-- `LoadFromJSON` (proxy.go:56-63): `json.Unmarshal` into a `Proxy`.
Non-object bytes fail; unknown fields are ignored; missing fields keep
their zero values; a known field of the wrong type fails. -/
def LoadFromJSON (v : Val) : Option Proxy :=
  match v with
  | Val.jobj fields =>
    match strField fields "ip", strField fields "port",
        strField fields "protocol", boolField fields "disable",
        timeField fields "updated" with
    | some ip, some port, some proto, some dis, some upd =>
      some { ip := ip, port := port, protocol := proto, disable := dis,
             updated := upd, addr := "", count := 0 }
    | _, _, _, _, _ => none
  | _ => none

/-- Decoding an encoded record recovers the five serialized fields
(`addr`/`count` are not serialized and come back as zero values). -/
theorem loadFromJSON_dumpJSON (p : Proxy) :
    LoadFromJSON (DumpJSON p) =
      some { p with addr := "", count := 0 } := rfl

theorem dumpJSON_roundtrip (p : Proxy) :
    DumpJSON { p with addr := "", count := 0 } = DumpJSON p := rfl

/-! ## Protocol prober (`determineConnectionProtocol`, proxy.go:116-208)

The network is abstracted by `ProbeEnv`: whether the initial synchronous
5 s TCP dial succeeds, and which of the three speculative checkers
(`checkSOCKS5`, `checkHTTP`, `checkHTTPS`) would report success on this
peer.  Each checker that succeeds sends a `(protocol, priority)` result
on the buffered result channel; the consumer drains the channel after
the goroutines join and keeps the result with the lowest priority.  The
list of results actually delivered on the channel is a separate
parameter `delivered`: cancellation may suppress some successful
checkers, but only successful checkers ever send. -/

/-- A value sent on `resultChan`: `type result { protocol; priority }`. -/
structure ProbeResult where
  protocol : String
  priority : Nat
deriving Repr, DecidableEq

/-- The remote peer's observable behaviour for one `(ip, port)`. -/
structure ProbeEnv where
  tcpOk : Bool
  socks5Ok : Bool
  httpOk : Bool
  httpsOk : Bool
deriving Repr, DecidableEq

/-- The results the three checkers of the `checkers` table would produce
on success, in table order: socks5 priority 1, http priority 2,
https priority 3. -/
def successes (env : ProbeEnv) : List ProbeResult :=
  (if env.socks5Ok then [⟨"socks5", 1⟩] else []) ++
  (if env.httpOk then [⟨"http", 2⟩] else []) ++
  (if env.httpsOk then [⟨"https", 3⟩] else [])

/-- One step of the consumer loop: keep the incoming result if there is
no best yet or its priority is strictly lower
(`if bestResult == nil || r.priority < bestResult.priority`). -/
def stepBest (best : Option ProbeResult) (r : ProbeResult) : Option ProbeResult :=
  match best with
  | none => some r
  | some b => if r.priority < b.priority then some r else some b

/-- The consumer loop `for r := range resultChan { ... }`. -/
def bestOf (delivered : List ProbeResult) : Option ProbeResult :=
  delivered.foldl stepBest none

/-- `determineConnectionProtocol`: fail with "connection failed" when the
initial TCP dial fails; otherwise pick the lowest-priority delivered
probe result, defaulting to "http" when none was delivered. -/
def determineConnectionProtocol (env : ProbeEnv)
    (delivered : List ProbeResult) : Except String String :=
  if env.tcpOk = false then Except.error "connection failed"
  else
    match bestOf delivered with
    | some best => Except.ok best.protocol
    | none => Except.ok "http"

theorem foldl_stepBest_some (delivered : List ProbeResult) (b : ProbeResult) :
    ∃ c, delivered.foldl stepBest (some b) = some c ∧
      (c = b ∨ c ∈ delivered) ∧ c.priority ≤ b.priority ∧
      ∀ r ∈ delivered, c.priority ≤ r.priority := by
  induction delivered generalizing b with
  | nil => exact ⟨b, rfl, Or.inl rfl, le_refl _, by simp⟩
  | cons x xs ih =>
    simp only [List.foldl_cons, stepBest]
    by_cases hx : x.priority < b.priority
    · simp only [hx, if_true]
      obtain ⟨c, hc, hmem, hle, hall⟩ := ih x
      refine ⟨c, hc, ?_, le_of_lt (lt_of_le_of_lt hle hx), ?_⟩
      · rcases hmem with h | h
        · exact Or.inr (by simp [h])
        · exact Or.inr (by simp [h])
      · intro r hr
        rcases List.mem_cons.mp hr with h | h
        · exact h ▸ hle
        · exact hall r h
    · simp only [hx, if_false]
      obtain ⟨c, hc, hmem, hle, hall⟩ := ih b
      refine ⟨c, hc, ?_, hle, ?_⟩
      · rcases hmem with h | h
        · exact Or.inl h
        · exact Or.inr (by simp [h])
      · intro r hr
        rcases List.mem_cons.mp hr with h | h
        · exact h ▸ le_trans hle (not_lt.mp hx)
        · exact hall r h

theorem bestOf_spec (delivered : List ProbeResult) (hne : delivered ≠ []) :
    ∃ c, bestOf delivered = some c ∧ c ∈ delivered ∧
      ∀ r ∈ delivered, c.priority ≤ r.priority := by
  cases delivered with
  | nil => exact absurd rfl hne
  | cons x xs =>
    obtain ⟨c, hc, hmem, hle, hall⟩ := foldl_stepBest_some xs x
    refine ⟨c, hc, ?_, ?_⟩
    · rcases hmem with h | h
      · simp [h]
      · simp [h]
    · intro r hr
      rcases List.mem_cons.mp hr with h | h
      · exact h ▸ hle
      · exact hall r h

/-- C1: For every (ip, port) input, the prober `determineConnectionProtocol`
returns at most one protocol label (it is a function into a single
`Except`-value), and whenever more than one of the three speculative
probes (socks5 priority 1, http priority 2, https priority 3) succeeds —
with every successful probe delivering its result on the channel — the
label returned is the successful one with the lowest priority number. -/
theorem C1_lowest_priority_wins (env : ProbeEnv) (delivered : List ProbeResult)
    (htcp : env.tcpOk = true)
    (hperm : List.Perm delivered (successes env))
    (h2 : 2 ≤ (successes env).length) :
    ∃ r, r ∈ successes env ∧
      determineConnectionProtocol env delivered = Except.ok r.protocol ∧
      ∀ r' ∈ successes env, r.priority ≤ r'.priority := by
  have hne : delivered ≠ [] := by
    have hlen : delivered.length = (successes env).length := hperm.length_eq
    have : 0 < delivered.length := by omega
    exact List.length_pos.mp this
  obtain ⟨c, hc, hmem, hall⟩ := bestOf_spec delivered hne
  refine ⟨c, hperm.mem_iff.mp hmem, ?_, ?_⟩
  · simp [determineConnectionProtocol, htcp, hc]
  · intro r' hr'
    exact hall r' (hperm.mem_iff.mpr hr')

theorem C1_lowest_priority_wins_witness :
    ({ tcpOk := true, socks5Ok := true, httpOk := true, httpsOk := false
       : ProbeEnv }.tcpOk = true) ∧
    List.Perm [ProbeResult.mk "http" 2, ProbeResult.mk "socks5" 1]
      (successes { tcpOk := true, socks5Ok := true, httpOk := true,
                   httpsOk := false }) ∧
    (∃ r, r ∈ successes { tcpOk := true, socks5Ok := true, httpOk := true,
                          httpsOk := false } ∧
      determineConnectionProtocol
        { tcpOk := true, socks5Ok := true, httpOk := true, httpsOk := false }
        [ProbeResult.mk "http" 2, ProbeResult.mk "socks5" 1] =
        Except.ok r.protocol ∧
      ∀ r' ∈ successes { tcpOk := true, socks5Ok := true, httpOk := true,
                         httpsOk := false }, r.priority ≤ r'.priority) :=
  ⟨rfl, by decide,
    C1_lowest_priority_wins _ _ rfl (by decide) (by decide)⟩

/-- C8: `determineConnectionProtocol` returns an error if and only if the
initial synchronous 5-second TCP dial fails; whenever that dial succeeds
it returns some protocol label without error, returning "http" as the
fallback when none of the three speculative probes succeeds (so nothing
is delivered on the result channel). -/
theorem C8_error_iff_dial_fails (env : ProbeEnv) (delivered : List ProbeResult) :
    (env.tcpOk = false →
      determineConnectionProtocol env delivered =
        Except.error "connection failed") ∧
    (env.tcpOk = true →
      ∃ s, determineConnectionProtocol env delivered = Except.ok s) ∧
    (∀ e, determineConnectionProtocol env delivered = Except.error e →
      env.tcpOk = false) ∧
    (env.tcpOk = true → (∀ r ∈ delivered, r ∈ successes env) →
      successes env = [] →
      determineConnectionProtocol env delivered = Except.ok "http") := by
  refine ⟨?_, ?_, ?_, ?_⟩
  · intro h
    simp [determineConnectionProtocol, h]
  · intro h
    simp only [determineConnectionProtocol, h]
    cases bestOf delivered with
    | none => exact ⟨"http", rfl⟩
    | some b => exact ⟨b.protocol, rfl⟩
  · intro e he
    by_contra hne
    have htrue : env.tcpOk = true := by
      cases h : env.tcpOk
      · exact absurd h hne
      · rfl
    simp only [determineConnectionProtocol, htrue] at he
    cases hb : bestOf delivered <;> simp [hb] at he
  · intro htcp hsub hempty
    have hnil : delivered = [] := by
      cases hd : delivered with
      | nil => rfl
      | cons x xs =>
        have : x ∈ successes env := hsub x (by simp [hd])
        rw [hempty] at this
        cases this
    simp [determineConnectionProtocol, htcp, hnil, bestOf]

theorem C8_error_iff_dial_fails_witness :
    (determineConnectionProtocol
        { tcpOk := false, socks5Ok := false, httpOk := false, httpsOk := false }
        [] = Except.error "connection failed") ∧
    (determineConnectionProtocol
        { tcpOk := true, socks5Ok := false, httpOk := false, httpsOk := false }
        [] = Except.ok "http") :=
  ⟨(C8_error_iff_dial_fails
      { tcpOk := false, socks5Ok := false, httpOk := false, httpsOk := false }
      []).1 rfl,
   (C8_error_iff_dial_fails
      { tcpOk := true, socks5Ok := false, httpOk := false, httpsOk := false }
      []).2.2.2 rfl (by intro r hr; cases hr) rfl⟩

/-! ## Validator (`ValidProxy`, proxy.go:65-114)

The validator's external collaborators are the prober (abstracted by a
`ProbeEnv` plus the channel contents, as above) and the colly fetch of a
random `generate_204` test URL.  The fetch is abstracted by the list of
response status codes observed by the `OnResponseHeaders` callback while
visiting the test URL (redirect hops each fire the callback once), and
by `time.Now()` at the success-update point. -/

/-- What the environment makes `ValidProxy` observe. -/
structure ValidEnv where
  probe : ProbeEnv
  delivered : List ProbeResult
  statuses : List Nat
  now : Nat

/-- `ValidProxy` as a state transformer on its `*Proxy` argument:
returns the boolean result together with the (possibly mutated) record.
Source order: IP guards; `determineConnectionProtocol`; write the probed
protocol into `p.Protocol`; empty-protocol guard; fetch, with `valid`
set when some response status is exactly 204; on success set
`updated = now`, `disable = false`; on failure set `disable = true`. -/
def ValidProxy (env : ValidEnv) (p : Proxy) : Bool × Proxy :=
  if p.ip = "" ∨ p.ip = "0.0.0.0" ∨ p.ip = "127.0.0.1" then (false, p)
  else
    match determineConnectionProtocol env.probe env.delivered with
    | Except.error _ => (false, p)
    | Except.ok pp =>
      let p1 := { p with protocol := pp }
      if p1.protocol = "" then (false, p1)
      else
        let valid := env.statuses.contains 204
        if valid then (true, { p1 with updated := env.now, disable := false })
        else (false, { p1 with disable := true })

/-- C2 counterexample: `ValidProxy` on a candidate with an empty IP
returns false on the early-reject path without touching the record, so
`disable` stays `false` — refuting "on every false return it has set the
record's disable to true".  (Concrete input: the empty-IP candidate
below, any environment.) -/
theorem C2_counterexample :
    (ValidProxy
        { probe := { tcpOk := true, socks5Ok := false, httpOk := false,
                     httpsOk := false },
          delivered := [], statuses := [204], now := 7 }
        { ip := "", port := "80", protocol := "http", disable := false,
          updated := 3, addr := "", count := 0 }).1 = false ∧
    (ValidProxy
        { probe := { tcpOk := true, socks5Ok := false, httpOk := false,
                     httpsOk := false },
          delivered := [], statuses := [204], now := 7 }
        { ip := "", port := "80", protocol := "http", disable := false,
          updated := 3, addr := "", count := 0 }).2.disable = false := by
  constructor <;> rfl

/-- C2 (amended): once the candidate passes the IP guards and the prober
returns a non-empty protocol, `ValidProxy` returns true iff some
response to the end-to-end fetch has status exactly 204; on every true
return it sets `updated = now` and `disable = false`, and on every false
return from this stage it sets `disable = true`.  (Early rejections —
empty/0.0.0.0/127.0.0.1 IP or prober failure — return false without
setting `disable`.) -/
theorem C2_amended (env : ValidEnv) (p : Proxy)
    (hip : ¬(p.ip = "" ∨ p.ip = "0.0.0.0" ∨ p.ip = "127.0.0.1"))
    (pp : String)
    (hpp : determineConnectionProtocol env.probe env.delivered = Except.ok pp)
    (hpp' : pp ≠ "") :
    ((ValidProxy env p).1 = true ↔ env.statuses.contains 204 = true) ∧
    ((ValidProxy env p).1 = true →
      (ValidProxy env p).2.updated = env.now ∧
      (ValidProxy env p).2.disable = false) ∧
    ((ValidProxy env p).1 = false → (ValidProxy env p).2.disable = true) := by
  simp only [ValidProxy, hip, if_false, hpp]
  cases hs : env.statuses.contains 204 <;> simp [hpp']

theorem C2_amended_witness :
    (¬(("1.2.3.4" : String) = "" ∨ ("1.2.3.4" : String) = "0.0.0.0" ∨
        ("1.2.3.4" : String) = "127.0.0.1")) ∧
    ((ValidProxy
        { probe := { tcpOk := true, socks5Ok := false, httpOk := false,
                     httpsOk := false },
          delivered := [], statuses := [301, 204], now := 7 }
        { ip := "1.2.3.4", port := "80", protocol := "", disable := true,
          updated := 0, addr := "", count := 0 }).1 = true ↔
      ([301, 204].contains 204 = true)) :=
  ⟨by decide,
   (C2_amended
      { probe := { tcpOk := true, socks5Ok := false, httpOk := false,
                   httpsOk := false },
        delivered := [], statuses := [301, 204], now := 7 }
      { ip := "1.2.3.4", port := "80", protocol := "", disable := true,
        updated := 0, addr := "", count := 0 }
      (by decide) "http" rfl (by decide)).1⟩

/-! ## The badger store, as an ordered association list

The spec treats the store as an opaque ordered map with point get/set/
delete and full-range iteration inside transactions.  It is modelled as
an association list of `(key, value)` pairs with unique keys (badger
keys are unique); iteration order is the list order. -/

/-- `txn.Get(key)`: first entry with the key. -/
def storeGet (s : List (String × Val)) (k : String) : Option Val :=
  (s.find? (fun kv => kv.1 == k)).map Prod.snd

/-- `txn.Set(key, val)`: overwrite the entry if the key is present,
otherwise append it. -/
def storeSet (s : List (String × Val)) (k : String) (v : Val) :
    List (String × Val) :=
  if s.any (fun kv => kv.1 == k) then
    s.map (fun kv => if kv.1 == k then (k, v) else kv)
  else s ++ [(k, v)]

theorem mem_storeSet (s : List (String × Val)) (k : String) (v : Val)
    (kv : String × Val) (h : kv ∈ storeSet s k v) : kv ∈ s ∨ kv = (k, v) := by
  unfold storeSet at h
  by_cases hc : s.any (fun kv => kv.1 == k)
  · rw [if_pos hc] at h
    obtain ⟨kv₀, hkv₀, heq⟩ := List.mem_map.mp h
    by_cases hk : kv₀.1 == k
    · right
      rw [if_pos hk] at heq
      exact heq.symm
    · left
      rw [if_neg hk] at heq
      exact heq ▸ hkv₀
  · rw [if_neg hc] at h
    rcases List.mem_append.mp h with h | h
    · exact Or.inl h
    · right
      simpa using h

/-! ## Selector (`selectProxyFromDB`, helpers.go:24-68) -/

/-- The records materialized by the iteration inside the read
transaction: unparseable entries are skipped, and only records with
`!p.Disable && !p.Updated.IsZero()` are kept. -/
def availableProxies (store : List (String × Val)) : List Proxy :=
  store.filterMap (fun kv =>
    match LoadFromJSON kv.2 with
    | none => none
    | some p => if !p.disable && !(p.updated == 0) then some p else none)

/-- `selectProxyFromDB`: error "no available proxies in database" when
the filtered set is empty, otherwise a uniformly random element
(`rand.Intn` is modelled by an arbitrary index taken modulo the set
size). -/
def selectProxyFromDB (store : List (String × Val)) (randIndex : Nat) :
    Except String Proxy :=
  let proxies := availableProxies store
  if h : proxies = [] then Except.error "no available proxies in database"
  else
    Except.ok (proxies.get
      ⟨randIndex % proxies.length,
       Nat.mod_lt _ (List.length_pos.mpr h)⟩)

/-- C3: Every record returned by `selectProxyFromDB` satisfies
`disable = false` and `updated` non-zero; when no stored record
satisfies both conditions (unparseable entries being skipped, so the
filtered set is empty), selection fails with the
"no available proxies" error instead of returning a record. -/
theorem C3_selection_invariant (store : List (String × Val)) (randIndex : Nat) :
    (∀ p : Proxy, selectProxyFromDB store randIndex = Except.ok p →
      p.disable = false ∧ p.updated ≠ 0) ∧
    (availableProxies store = [] →
      selectProxyFromDB store randIndex =
        Except.error "no available proxies in database") := by
  constructor
  · intro p hp
    unfold selectProxyFromDB at hp
    by_cases h : availableProxies store = []
    · simp [h] at hp
    · rw [dif_neg h] at hp
      have hmem : p ∈ availableProxies store := by
        rw [Except.ok.injEq] at hp
        rw [← hp]
        exact List.get_mem _ _ _
      obtain ⟨kv, _, hkv⟩ := List.mem_filterMap.mp hmem
      cases hload : LoadFromJSON kv.2 with
      | none => simp [hload] at hkv
      | some q =>
        simp only [hload] at hkv
        split at hkv
        next hcond =>
          injection hkv with hqp
          subst hqp
          have hc := (Bool.and_eq_true _ _).mp hcond
          constructor
          · simpa using hc.1
          · simpa using hc.2
        next => cases hkv
  · intro h
    unfold selectProxyFromDB
    rw [dif_pos h]

theorem C3_selection_invariant_witness :
    ({ ip := "1.2.3.4", port := "80", protocol := "http", disable := false,
       updated := 5, addr := "", count := 0 : Proxy }.disable = false ∧
     { ip := "1.2.3.4", port := "80", protocol := "http", disable := false,
       updated := 5, addr := "", count := 0 : Proxy }.updated ≠ 0) :=
  (C3_selection_invariant
      [("http://1.2.3.4:80",
        DumpJSON { ip := "1.2.3.4", port := "80", protocol := "http",
                   disable := false, updated := 5, addr := "", count := 0 })]
      0).1
    { ip := "1.2.3.4", port := "80", protocol := "http", disable := false,
      updated := 5, addr := "", count := 0 }
    rfl

/-! ## Cleanup (`cleanupProxiesFromDB`, main package) -/

/-- `maxAge := 72 * time.Hour`, in nanoseconds. -/
def maxAge : Int := 72 * 3600 * 1000000000

/-- The per-record deletion test of `cleanupProxiesFromDB`: disabled,
zero `updated`, or non-zero `updated` older than `maxAge`. -/
def shouldDelete (now : Nat) (p : Proxy) : Bool :=
  p.disable || (p.updated == 0) ||
    (!(p.updated == 0) && decide ((now : Int) - (p.updated : Int) > maxAge))

/-- The cleanup predicate over a stored value: unparseable values are
deletion candidates, parseable ones go through `shouldDelete`. -/
def cleanupPredicate (now : Nat) (v : Val) : Bool :=
  match LoadFromJSON v with
  | none => true
  | some p => shouldDelete now p

/-- The second phase of the cleanup transaction: delete the collected
keys one by one (`for _, key := range keysToDelete { txn.Delete(key) }`). -/
def deleteKeys : List String → List (String × Val) → List (String × Val)
  | [], s => s
  | k :: ks, s => deleteKeys ks (s.filter (fun kv => !(kv.1 == k)))

/-- `cleanupProxiesFromDB`: one read–write transaction that first
collects the keys of all entries matching the cleanup predicate (in
iteration order), then deletes them, counting one per deleted key.
Returns `(deletedCount, store after the pass)`. -/
def cleanupProxiesFromDB (now : Nat) (store : List (String × Val)) :
    Nat × List (String × Val) :=
  let keysToDelete :=
    (store.filter (fun kv => cleanupPredicate now kv.2)).map Prod.fst
  (keysToDelete.length, deleteKeys keysToDelete store)

theorem deleteKeys_eq_filter (ks : List String) (s : List (String × Val)) :
    deleteKeys ks s = s.filter (fun kv => !(ks.contains kv.1)) := by
  induction ks generalizing s with
  | nil => simp [deleteKeys]
  | cons k ks ih =>
    simp only [deleteKeys, ih, List.filter_filter]
    apply List.filter_congr
    intro kv _
    simp only [List.contains_cons, Bool.not_or]
    cases h1 : kv.1 == k <;> cases h2 : ks.contains kv.1 <;> rfl

theorem contains_of_mem_fst {s : List (String × Val)} {kv : String × Val}
    (h : kv ∈ s) : (s.map Prod.fst).contains kv.1 = true := by
  have : kv.1 ∈ s.map Prod.fst := List.mem_map.mpr ⟨kv, h, rfl⟩
  exact List.elem_iff.mpr this

/-- C4: After a successful `cleanupProxiesFromDB` pass, every record
remaining in the store is decodable, has `disable = false`, non-zero
`updated`, and `now - updated ≤ 72h`; exactly the entries matching the
cleanup predicate (unparseable, disabled, zero-updated, or older than
72 hours) are deleted, and the returned count equals the number of
deleted entries.  (Hypothesis: store keys are unique, as badger
guarantees.) -/
theorem C4_cleanup_pass (now : Nat) (store : List (String × Val))
    (hnd : (store.map Prod.fst).Nodup) :
    (∀ kv ∈ (cleanupProxiesFromDB now store).2,
      ∃ p, LoadFromJSON kv.2 = some p ∧ p.disable = false ∧ p.updated ≠ 0 ∧
        (now : Int) - (p.updated : Int) ≤ maxAge) ∧
    (cleanupProxiesFromDB now store).2 =
      store.filter (fun kv => !(cleanupPredicate now kv.2)) ∧
    (cleanupProxiesFromDB now store).1 =
      (store.filter (fun kv => cleanupPredicate now kv.2)).length := by
  have hmain : (cleanupProxiesFromDB now store).2 =
      store.filter (fun kv => !(cleanupPredicate now kv.2)) := by
    show deleteKeys _ store = _
    rw [deleteKeys_eq_filter]
    apply List.filter_congr
    intro kv hkv
    cases hpred : cleanupPredicate now kv.2 with
    | true =>
      have hin : kv ∈ store.filter (fun kv => cleanupPredicate now kv.2) :=
        List.mem_filter.mpr ⟨hkv, hpred⟩
      rw [contains_of_mem_fst hin]
    | false =>
      have hnc : ((store.filter (fun kv => cleanupPredicate now kv.2)).map
          Prod.fst).contains kv.1 = false := by
        cases hc : ((store.filter (fun kv => cleanupPredicate now kv.2)).map
            Prod.fst).contains kv.1 with
        | false => rfl
        | true =>
          exfalso
          have hm := List.elem_iff.mp hc
          obtain ⟨kv', hkv', hfst⟩ := List.mem_map.mp hm
          have hkv's := (List.mem_filter.mp hkv').1
          have hkv'p := (List.mem_filter.mp hkv').2
          have : kv' = kv :=
            List.inj_on_of_nodup_map hnd hkv's hkv hfst
          rw [this, hpred] at hkv'p
          cases hkv'p
      rw [hnc]
  refine ⟨?_, hmain, ?_⟩
  case refine_2 =>
    show ((store.filter (fun kv => cleanupPredicate now kv.2)).map
      Prod.fst).length = _
    rw [List.length_map]
  intro kv hkv
  rw [hmain] at hkv
  have hpred : cleanupPredicate now kv.2 = false := by
    have := (List.mem_filter.mp hkv).2
    simpa using this
  unfold cleanupPredicate at hpred
  cases hload : LoadFromJSON kv.2 with
  | none => rw [hload] at hpred; cases hpred
  | some p =>
    rw [hload] at hpred
    refine ⟨p, rfl, ?_⟩
    unfold shouldDelete at hpred
    simp only [Bool.or_eq_false_iff, Bool.and_eq_false_iff] at hpred
    obtain ⟨⟨hdis, hupd⟩, hage⟩ := hpred
    have hupd' : p.updated ≠ 0 := by simpa using hupd
    refine ⟨hdis, hupd', ?_⟩
    rcases hage with h | h
    · exfalso
      have : (p.updated == 0) = true := by
        cases hz : (p.updated == 0)
        · rw [hz] at h; cases h
        · rfl
      rw [this] at hupd
      cases hupd
    · have := of_decide_eq_false h
      omega

/-- A concrete two-entry store (one healthy record, one disabled) used
to exercise `cleanupProxiesFromDB`. -/
def cleanupStoreExample : List (String × Val) :=
  [("http://1.1.1.1:80",
    DumpJSON { ip := "1.1.1.1", port := "80", protocol := "http",
               disable := false, updated := 500, addr := "", count := 0 }),
   ("http://3.3.3.3:80",
    DumpJSON { ip := "3.3.3.3", port := "80", protocol := "http",
               disable := true, updated := 500, addr := "", count := 0 })]

theorem C4_cleanup_pass_witness :
    ((cleanupStoreExample.map Prod.fst).Nodup) ∧
    (cleanupProxiesFromDB 600 cleanupStoreExample).1 =
      (cleanupStoreExample.filter
        (fun kv => cleanupPredicate 600 kv.2)).length :=
  ⟨by decide,
   (C4_cleanup_pass 600 cleanupStoreExample (by decide)).2.2⟩

/-! ## Discovery writer and counter keys (`gatherProxies` /
`updateProxyCount`) -/

/-- The spec's key/value invariant: every stored key equals the
`"{protocol}://{ip}:{port}"` string derived from the record decoded from
the value stored under it. -/
def keyInvariant (s : List (String × Val)) : Prop :=
  ∀ kv ∈ s, ∃ p, LoadFromJSON kv.2 = some p ∧ ProxyString p = kv.1

/-- One step of the `gatherProxies` writer goroutine for a record
received on the channel: inside one transaction, `key := p.String()`,
`val := p.DumpJSON()`, and both the key-absent and key-present branches
end in `txn.Set(key, val)` (the `Get` only feeds the new/updated
counters). -/
def gatherWriterStep (s : List (String × Val)) (p : Proxy) :
    List (String × Val) :=
  storeSet s (ProxyString p) (DumpJSON p)

/-- `v[0]` of a stored value: the first byte of a raw value, `123`
(the byte `\x7b`) for a JSON object rendering.  (Go would panic on an
empty value; no caller stores one under a counter key.) -/
def firstByte : Val → Nat
  | Val.raw (b :: _) => b
  | Val.raw [] => 0
  | _ => 123

/-- `updateProxyCount` (helpers.go:102-131), store effect only: under
the key `"proxy_count_" + addr` (where `addr` falls back to
`ip + ":" + port`), store the single byte `v[0]+1` if the key is
present, else the single byte `1`.  The byte cast wraps modulo 256. -/
def updateProxyCount (s : List (String × Val)) (p : Proxy) :
    List (String × Val) :=
  let addr := if p.addr = "" then p.ip ++ ":" ++ p.port else p.addr
  let key := "proxy_count_" ++ addr
  match storeGet s key with
  | some v => storeSet s key (Val.raw [(firstByte v + 1) % 256])
  | none => storeSet s key (Val.raw [1])

/-- C6 counterexample: the claim quantifies over every key present in
the store, but `updateProxyCount` — called by the CONNECT handler on
each successful tunnel — writes the usage counter under
`"proxy_count_{addr}"` with a single non-JSON byte as value.  Concretely,
starting from the empty store, one call leaves a store whose only key
`"proxy_count_1.2.3.4:80"` has the undecodable value `0x01`, so the
invariant fails for it. -/
theorem C6_counterexample :
    updateProxyCount []
      { ip := "1.2.3.4", port := "80", protocol := "http", disable := false,
        updated := 5, addr := "", count := 0 } =
      [("proxy_count_1.2.3.4:80", Val.raw [1])] ∧
    ¬ keyInvariant (updateProxyCount []
      { ip := "1.2.3.4", port := "80", protocol := "http", disable := false,
        updated := 5, addr := "", count := 0 }) := by
  refine ⟨rfl, ?_⟩
  intro h
  obtain ⟨p, hp, _⟩ := h ("proxy_count_1.2.3.4:80", Val.raw [1])
    (by rw [show updateProxyCount []
      { ip := "1.2.3.4", port := "80", protocol := "http", disable := false,
        updated := 5, addr := "", count := 0 } =
      [("proxy_count_1.2.3.4:80", Val.raw [1])] from rfl]; exact List.mem_singleton.mpr rfl)
  cases hp

/-- C6 (amended): the key/value invariant holds for every write of a
proxy record — the discovery writer (and the health re-checker, which
writes the same `(p.String(), p.DumpJSON())` shape) preserves it — but
not for the store as a whole: the usage/health counter keys
(`proxy_count_…`, `proxy_health_…`) written by the CONNECT handler carry
single-byte non-JSON values and violate it. -/
theorem C6_amended (s : List (String × Val)) (p : Proxy)
    (h : keyInvariant s) : keyInvariant (gatherWriterStep s p) := by
  intro kv hkv
  rcases mem_storeSet _ _ _ _ hkv with hold | hnew
  · exact h kv hold
  · subst hnew
    exact ⟨{ p with addr := "", count := 0 }, loadFromJSON_dumpJSON p, rfl⟩

theorem C6_amended_witness :
    keyInvariant ([] : List (String × Val)) ∧
    keyInvariant (gatherWriterStep []
      { ip := "1.2.3.4", port := "80", protocol := "http", disable := false,
        updated := 5, addr := "", count := 0 }) :=
  ⟨fun kv hkv => absurd hkv (List.not_mem_nil kv),
   C6_amended []
     { ip := "1.2.3.4", port := "80", protocol := "http", disable := false,
       updated := 5, addr := "", count := 0 }
     (fun kv hkv => absurd hkv (List.not_mem_nil kv))⟩

/-! ## Health re-check (`checkAllProxiesHealth`, main package) -/

/-- The per-record body of `checkAllProxiesHealth`: run `ValidProxy` on
the record loaded from the store; when it fails, re-store the (by then
mutated) record with `Disable = true` under the key `p.String()`
computed after the mutation. -/
def healthRecheckStep (env : ValidEnv) (p : Proxy)
    (s : List (String × Val)) : List (String × Val) :=
  let r := ValidProxy env p
  if r.1 = true then s
  else storeSet s (ProxyString r.2) (DumpJSON { r.2 with disable := true })

/-- The environment of a re-check where the TCP dial succeeds, no
speculative probe succeeds (so the prober falls back to "http"), and the
end-to-end fetch fails. -/
def recheckEnvExample : ValidEnv :=
  { probe := { tcpOk := true, socks5Ok := false, httpOk := false,
               httpsOk := false },
    delivered := [], statuses := [], now := 9 }

/-- A socks5 record as it would be loaded from the store before the
re-check. -/
def recheckProxyExample : Proxy :=
  { ip := "1.2.3.4", port := "80", protocol := "socks5", disable := false,
    updated := 5, addr := "", count := 0 }

/-- C10: `ValidProxy` writes the probed protocol into its argument's
`Protocol` field before running the reachability test, so a call that
returns false may still have changed the candidate's protocol — and
therefore the derived key — from what it was on entry; the health
re-checker, which re-stores the record after a failed re-check, then
writes it under a different key than the one it was loaded from.
Concretely: a stored socks5 record whose re-probe falls back to "http"
and whose fetch fails is re-stored under `http://1.2.3.4:80` while the
original `socks5://1.2.3.4:80` entry stays behind. -/
theorem C10_failed_recheck_changes_key :
    (ValidProxy recheckEnvExample recheckProxyExample).1 = false ∧
    (ValidProxy recheckEnvExample recheckProxyExample).2.protocol = "http" ∧
    recheckProxyExample.protocol = "socks5" ∧
    ProxyString (ValidProxy recheckEnvExample recheckProxyExample).2 ≠
      ProxyString recheckProxyExample ∧
    (healthRecheckStep recheckEnvExample recheckProxyExample
        [(ProxyString recheckProxyExample, DumpJSON recheckProxyExample)]
      ).map Prod.fst = ["socks5://1.2.3.4:80", "http://1.2.3.4:80"] := by
  refine ⟨rfl, rfl, rfl, ?_, ?_⟩
  · decide
  · rfl

/-- C9: For every value `v` produced by encoding a proxy record with
`DumpJSON`, decoding `v` with `LoadFromJSON` succeeds and re-encoding
the result yields `v` again, i.e. `encode(decode(v)) = v` on the image
of `encode`. -/
theorem C9_encode_decode_roundtrip (p : Proxy) (v : Val)
    (h : DumpJSON p = v) :
    ∃ q, LoadFromJSON v = some q ∧ DumpJSON q = v := by
  subst h
  exact ⟨{ p with addr := "", count := 0 }, loadFromJSON_dumpJSON p, rfl⟩

theorem C9_encode_decode_roundtrip_witness :
    ∃ q, LoadFromJSON (DumpJSON recheckProxyExample) = some q ∧
      DumpJSON q = DumpJSON recheckProxyExample :=
  C9_encode_decode_roundtrip recheckProxyExample
    (DumpJSON recheckProxyExample) rfl

/-! ## CONNECT tunnel close discipline (`connect_handler.go`)

The tunnel's two sockets are the hijacked client connection
(`clientConn`) and the upstream connection (`conn`).  What the claim is
about is how many times each is closed, so the tunnel is modelled by
the sequence of `Close()` calls it performs: each copier's deferred
close of its destination, then — after `wg.Wait()` — `handleConnect`'s
final `clientConn.Close(); conn.Close()` (lines 104-105).  Which copier
finishes first depends on which direction reaches EOF first; both
orders are covered. -/

/-- The two sockets of a CONNECT tunnel. -/
inductive Sock where
  | client
  | target
deriving Repr, DecidableEq, BEq

/-- Which direction of the tunnel reaches EOF first. -/
inductive EofOrder where
  | clientFirst
  | targetFirst
deriving Repr, DecidableEq

/-- `hijackClientToTarget` (lines 111-120): copies client→target and
closes the target connection in its deferred recovery block. -/
def hijackClientToTargetCloses : List Sock := [Sock.target]

/-- `hijackTargetToClient` (lines 123-132): copies target→client and
closes the client connection in its deferred recovery block. -/
def hijackTargetToClientCloses : List Sock := [Sock.client]

/-- The full sequence of `Close()` calls over one tunnel's lifetime:
the copier on the side that EOFs first runs its deferred close first,
the other copier follows, and after both join `handleConnect` closes
`clientConn` then `conn`. -/
def tunnelCloses (e : EofOrder) : List Sock :=
  (match e with
   | EofOrder.clientFirst =>
     hijackClientToTargetCloses ++ hijackTargetToClientCloses
   | EofOrder.targetFirst =>
     hijackTargetToClientCloses ++ hijackClientToTargetCloses) ++
  [Sock.client, Sock.target]

/-- How many times a socket is closed during one tunnel. -/
def closeCount (e : EofOrder) (s : Sock) : Nat :=
  (tunnelCloses e).count s

/-- C5 counterexample: the claim says each of the two sockets is closed
exactly once over the tunnel's lifetime, but `handleConnect` closes both
sockets again after `wg.Wait()` even though each copier already closed
its destination — so (concretely, with the client side EOFing first) the
client socket is closed twice, not once. -/
theorem C5_counterexample :
    closeCount EofOrder.clientFirst Sock.client ≠ 1 ∧
    closeCount EofOrder.clientFirst Sock.client = 2 := by
  constructor <;> decide

/-- C5 (amended): for every CONNECT tunnel, regardless of which
direction reaches EOF first, each of the two sockets is closed exactly
twice — once by the copier that writes toward it (deferred close of the
destination) and once by `handleConnect`'s final cleanup after both
copiers join.  In particular neither socket is leaked, and the
half-close by the first copier still drives the other copier to
termination. -/
theorem C5_amended (e : EofOrder) (s : Sock) : closeCount e s = 2 := by
  cases e <;> cases s <;> decide

/-! ## Extractors (`internal/extractor`)

Go's regexp engine itself is an external collaborator; the extractors
are embedded at the level of their match lists and of their per-row cell
scans, with the anchored character-class regexes (`^\d{2,5}$`,
`^(\d{1,3}\.){3}\d{1,3}$`) implemented directly on the strings. -/

/-- `strconv.Atoi` on the digit strings produced by the extractor
regexes: optional sign, then a non-empty run of decimal digits (the
matched port strings are always plain digit runs, so overflow and other
`Atoi` details cannot arise). -/
def parseDigits (cs : List Char) : Option Nat :=
  if cs ≠ [] ∧ cs.all Char.isDigit then
    some (cs.foldl (fun a c => a * 10 + (c.toNat - 48)) 0)
  else none

def atoi (s : String) : Option Int :=
  match s.data with
  | '+' :: rest => (parseDigits rest).map (fun n => (n : Int))
  | '-' :: rest => (parseDigits rest).map (fun n => -(n : Int))
  | cs => (parseDigits cs).map (fun n => (n : Int))

/-- The `isValidPort` helper of `extractAndValidateProxies`:
`port > 0 && port <= 65535` after `strconv.Atoi`. -/
def isValidPort (s : String) : Bool :=
  match atoi s with
  | none => false
  | some n => decide (0 < n ∧ n ≤ 65535)

/-- `strings.ToLower` (for the ASCII scheme names matched by reg1). -/
def toLowerStr (s : String) : String := String.mk (s.data.map Char.toLower)

/-- A match of reg1 `(?i)(?:(scheme)://)?(ip):(port)`: the scheme group
is `""` when the optional alternative did not participate. -/
structure Match1 where
  protocol : String
  ip : String
  port : String
deriving Repr, DecidableEq

/-- A match of reg2 (loose adjacency) or reg3 (JSON object form):
an `(ip, port)` capture pair. -/
structure Match2 where
  ip : String
  port : String
deriving Repr, DecidableEq

/-- The reg1 loop of `extractAndValidateProxies`: skip matches whose
port fails `isValidPort`, deduplicate on `ip:port` via `seen`, lowercase
the scheme, default a missing scheme to "http", and hand the candidate
to a `ValidProxy` goroutine.  Returns the submitted candidates and the
final `seen` set. -/
def submitFrom1 : List Match1 → List String → List Proxy × List String
  | [], seen => ([], seen)
  | m :: ms, seen =>
    if isValidPort m.port = false then submitFrom1 ms seen
    else if (m.ip ++ ":" ++ m.port) ∈ seen then submitFrom1 ms seen
    else
      let proto := toLowerStr m.protocol
      let proto := if proto = "" then "http" else proto
      let rest := submitFrom1 ms ((m.ip ++ ":" ++ m.port) :: seen)
      ({ ip := m.ip, port := m.port, protocol := proto, disable := false,
         updated := 0, addr := "", count := 0 } :: rest.1, rest.2)

/-- The reg2/reg3 loop: same port filter and dedup (the `seen` map is
shared with the reg1 loop), protocol always "http". -/
def submitFrom23 : List Match2 → List String → List Proxy × List String
  | [], seen => ([], seen)
  | m :: ms, seen =>
    if isValidPort m.port = false then submitFrom23 ms seen
    else if (m.ip ++ ":" ++ m.port) ∈ seen then submitFrom23 ms seen
    else
      let rest := submitFrom23 ms ((m.ip ++ ":" ++ m.port) :: seen)
      ({ ip := m.ip, port := m.port, protocol := "http", disable := false,
         updated := 0, addr := "", count := 0 } :: rest.1, rest.2)

/-- `extractAndValidateProxies`, as the list of candidates it submits
for validation, given the reg1 matches and the reg2/reg3 matches of the
payload. -/
def extractAndValidateProxies (m1 : List Match1) (m23 : List Match2) :
    List Proxy :=
  let r1 := submitFrom1 m1 []
  let r23 := submitFrom23 m23 r1.2
  r1.1 ++ r23.1

/-- Split a character list at the dots, for the anchored IPv4 regex. -/
def splitOnDot : List Char → List (List Char)
  | [] => [[]]
  | c :: cs =>
    if c = '.' then [] :: splitOnDot cs
    else
      match splitOnDot cs with
      | [] => [[c]]
      | g :: gs => (c :: g) :: gs

/-- One `\d{1,3}` group of the HTML extractor's IP regex. -/
def digitGroup (g : List Char) : Bool :=
  decide (1 ≤ g.length) && decide (g.length ≤ 3) && g.all Char.isDigit

/-- The HTML extractor's `^(\d{1,3}\.\d{1,3}\.\d{1,3}\.\d{1,3})$`. -/
def ipMatch (s : String) : Bool :=
  let gs := splitOnDot s.data
  (gs.length == 4) && gs.all digitGroup

/-- The HTML extractor's port regex `^(\d{2,5})$` — note: no range
check, any 2-to-5-digit run is accepted. -/
def portMatch (s : String) : Bool :=
  decide (2 ≤ s.data.length) && decide (s.data.length ≤ 5) &&
    s.data.all Char.isDigit

/-- The per-`<tr>` cell scan of `extractProxiesFromHTMLTable`: the first
cell matching the IP regex becomes `ip`, the next cell after it matching
the port regex becomes `port` (cell texts arrive trimmed). -/
def scanCells : List String → String → String → String × String
  | [], ip, port => (ip, port)
  | c :: cs, ip, port =>
    if ip = "" ∧ ipMatch c = true then scanCells cs c port
    else if ip ≠ "" ∧ port = "" ∧ portMatch c = true then scanCells cs ip c
    else scanCells cs ip port

/-- A row yields a candidate iff both `ip` and `port` were found; the
candidate carries no protocol (`ValidProxy` fills it in). -/
def rowCandidate (cells : List String) : Option Proxy :=
  let r := scanCells cells "" ""
  if r.1 ≠ "" ∧ r.2 ≠ "" then
    some { ip := r.1, port := r.2, protocol := "", disable := false,
           updated := 0, addr := "", count := 0 }
  else none

/-- `extractProxiesFromHTMLTable`, as the list of candidates it submits
for validation, given the rows of the (tag-stripped) table. -/
def extractProxiesFromHTMLTable (rows : List (List String)) : List Proxy :=
  rows.filterMap rowCandidate

/-- C7 counterexample: not every candidate the extractors submit for
validation has a port in 1..65535 — the HTML-table extractor's port
regex `^(\d{2,5})$` has no range check, so the concrete row
`["1.2.3.4", "70000"]` submits a candidate with port "70000" even
though 70000 is out of range. -/
theorem C7_counterexample :
    (extractProxiesFromHTMLTable [["1.2.3.4", "70000"]]).map
      (fun c => (c.ip, c.port)) = [("1.2.3.4", "70000")] ∧
    isValidPort "70000" = false := by
  constructor <;> decide

theorem submitFrom1_spec (ms : List Match1) (seen : List String) :
    ∀ c ∈ (submitFrom1 ms seen).1,
      isValidPort c.port = true ∧
      (c.protocol = "http" ∨
        ∃ m ∈ ms, toLowerStr m.protocol ≠ "" ∧
          c.protocol = toLowerStr m.protocol) := by
  induction ms generalizing seen with
  | nil => intro c hc; cases hc
  | cons m ms ih =>
    intro c hc
    unfold submitFrom1 at hc
    by_cases hv : isValidPort m.port = false
    · rw [if_pos hv] at hc
      obtain ⟨h1, h2⟩ := ih seen c hc
      refine ⟨h1, ?_⟩
      rcases h2 with h | ⟨m', hm', hp⟩
      · exact Or.inl h
      · exact Or.inr ⟨m', List.mem_cons_of_mem m hm', hp⟩
    · rw [if_neg hv] at hc
      by_cases hs : (m.ip ++ ":" ++ m.port) ∈ seen
      · rw [if_pos hs] at hc
        obtain ⟨h1, h2⟩ := ih seen c hc
        refine ⟨h1, ?_⟩
        rcases h2 with h | ⟨m', hm', hp⟩
        · exact Or.inl h
        · exact Or.inr ⟨m', List.mem_cons_of_mem m hm', hp⟩
      · rw [if_neg hs] at hc
        rcases List.mem_cons.mp hc with hhd | htl
        · subst hhd
          have hvp : isValidPort m.port = true := by
            cases h : isValidPort m.port
            · exact absurd h hv
            · rfl
          refine ⟨hvp, ?_⟩
          by_cases hl : toLowerStr m.protocol = ""
          · left; simp [hl]
          · right
            exact ⟨m, List.mem_cons_self m ms, hl, by simp [hl]⟩
        · obtain ⟨h1, h2⟩ := ih ((m.ip ++ ":" ++ m.port) :: seen) c htl
          refine ⟨h1, ?_⟩
          rcases h2 with h | ⟨m', hm', hp⟩
          · exact Or.inl h
          · exact Or.inr ⟨m', List.mem_cons_of_mem m hm', hp⟩

theorem submitFrom23_spec (ms : List Match2) (seen : List String) :
    ∀ c ∈ (submitFrom23 ms seen).1,
      isValidPort c.port = true ∧ c.protocol = "http" := by
  induction ms generalizing seen with
  | nil => intro c hc; cases hc
  | cons m ms ih =>
    intro c hc
    unfold submitFrom23 at hc
    by_cases hv : isValidPort m.port = false
    · rw [if_pos hv] at hc
      exact ih seen c hc
    · rw [if_neg hv] at hc
      by_cases hs : (m.ip ++ ":" ++ m.port) ∈ seen
      · rw [if_pos hs] at hc
        exact ih seen c hc
      · rw [if_neg hs] at hc
        rcases List.mem_cons.mp hc with hhd | htl
        · subst hhd
          have hvp : isValidPort m.port = true := by
            cases h : isValidPort m.port
            · exact absurd h hv
            · rfl
          exact ⟨hvp, rfl⟩
        · exact ih ((m.ip ++ ":" ++ m.port) :: seen) c htl

/-- C7 (amended): every candidate the JSON/text extractor
(`extractAndValidateProxies`) submits for validation has a port string
parsing to 1..65535 — in particular no candidate with port "70000" is
ever submitted by it — and its protocol is "http" (the default for a
missing scheme and for the reg2/reg3 matches) or the lowercased scheme
captured by reg1.  The HTML-table extractor, by contrast, only requires
2-5 digits and can submit out-of-range ports (see the counterexample),
where validation then fails at dial time. -/
theorem C7_amended (m1 : List Match1) (m23 : List Match2) :
    ∀ c ∈ extractAndValidateProxies m1 m23,
      isValidPort c.port = true ∧ c.port ≠ "70000" ∧
      (c.protocol = "http" ∨
        ∃ m ∈ m1, toLowerStr m.protocol ≠ "" ∧
          c.protocol = toLowerStr m.protocol) := by
  intro c hc
  unfold extractAndValidateProxies at hc
  have hvalid : isValidPort c.port = true ∧
      (c.protocol = "http" ∨
        ∃ m ∈ m1, toLowerStr m.protocol ≠ "" ∧
          c.protocol = toLowerStr m.protocol) := by
    rcases List.mem_append.mp hc with h | h
    · exact submitFrom1_spec m1 [] c h
    · obtain ⟨h1, h2⟩ := submitFrom23_spec m23 (submitFrom1 m1 []).2 c h
      exact ⟨h1, Or.inl h2⟩
  refine ⟨hvalid.1, ?_, hvalid.2⟩
  intro hport
  rw [hport] at hvalid
  have : isValidPort "70000" = false := by decide
  rw [this] at hvalid
  cases hvalid.1

/-- The candidate that the reg1 match `SOCKS5://1.2.3.4:1080` submits. -/
def socks5CandidateExample : Proxy :=
  { ip := "1.2.3.4", port := "1080", protocol := "socks5",
    disable := false, updated := 0, addr := "", count := 0 }

theorem C7_amended_witness :
    (socks5CandidateExample ∈
      extractAndValidateProxies [⟨"SOCKS5", "1.2.3.4", "1080"⟩] []) ∧
    isValidPort socks5CandidateExample.port = true :=
  ⟨by decide,
   (C7_amended [⟨"SOCKS5", "1.2.3.4", "1080"⟩] []
      socks5CandidateExample (by decide)).1⟩

end DynamicProxy
